import Mathlib

/-
  Verification development for the picosh serial controller
  (src/src/main.rs).  The definitions below are a shallow embedding of
  the frame encoder, the symbol resolver, the command dispatcher and the
  byte-level serial loops of main.rs.  Bytes are modelled as Nat values
  below 256, Rust String values as List Char, and fallible operations as
  Option or explicit outcome types.
-/

namespace Picosh

/-- UTF-8 encoding of one character, as Rust String::into_bytes produces.
Used to model the .into_bytes() calls of main.rs; Rust char and Lean Char
are both Unicode scalar values. -/
def utf8Bytes (c : Char) : List Nat :=
  let n := c.toNat
  if n < 128 then [n]
  else if n < 2048 then [192 + n / 64, 128 + n % 64]
  else if n < 65536 then [224 + n / 4096, 128 + n / 64 % 64, 128 + n % 64]
  else [240 + n / 262144, 128 + n / 4096 % 64, 128 + n / 64 % 64, 128 + n % 64]

/-- UTF-8 encoding of a character sequence. -/
def utf8Str : List Char → List Nat
  | [] => []
  | c :: cs => utf8Bytes c ++ utf8Str cs

/-- main.rs line 14: LOAD_PROG_MAGIC = "LOADPROG".as_bytes(). -/
def LOAD_PROG_MAGIC : List Nat := utf8Str (['L', 'O', 'A', 'D', 'P', 'R', 'O', 'G'])

/-- main.rs line 15: KILL_PROG_MAGIC = "KILLTASK".as_bytes(). -/
def KILL_PROG_MAGIC : List Nat := utf8Str (['K', 'I', 'L', 'L', 'T', 'A', 'S', 'K'])

/-- main.rs line 16: LIST_TASKS_MAGIC = "LISTPROG".as_bytes(). -/
def LIST_TASKS_MAGIC : List Nat := utf8Str (['L', 'I', 'S', 'T', 'P', 'R', 'O', 'G'])

/-- main.rs line 17: RELOAD_TASKS_MAGIC = "RELAUNCH".as_bytes(). -/
def RELOAD_TASKS_MAGIC : List Nat := utf8Str (['R', 'E', 'L', 'A', 'U', 'N', 'C', 'H'])

/-- Little-endian byte decomposition: k bytes of n, least significant first.
leBytes 8 n models u64::to_le_bytes for n below 2^64. -/
def leBytes : Nat → Nat → List Nat
  | 0, _ => []
  | k + 1, n => n % 256 :: leBytes k (n / 256)

/-- The 8-byte little-endian serialization used for the size and
symbol-address fields (main.rs lines 77 and 91). -/
def toLe64 (n : Nat) : List Nat := leBytes 8 n

/-- Little-endian reassembly of a byte list into a number. -/
def fromLe64 : List Nat → Nat
  | [] => 0
  | b :: rest => b + 256 * fromLe64 rest

/-- The identifier transform shared by the Load, Kill and Relaunch handlers
(main.rs lines 96, 118, 139): right-pad with spaces to a width of 8
characters, then keep the first 8 characters.  Rust width padding and
take(8) both count characters, not bytes. -/
def padTakeId (id : List Char) : List Char :=
  (id ++ List.replicate (8 - id.length) ' ').take 8

/-- The encoded task-identifier field: UTF-8 bytes of the padded and
truncated character sequence, as produced by into_bytes(). -/
def taskIdBytes (id : List Char) : List Nat := utf8Str (padTakeId id)

/-- Model of the elf crate StringTable::get used at main.rs line 87: read
the NUL-terminated string starting at a byte offset, failing when the
offset is out of bounds. -/
def strtabGet (strtab : List Char) (off : Nat) : Option (List Char) :=
  if off < strtab.length then
    some ((strtab.drop off).takeWhile (fun c => c != Char.ofNat 0))
  else none

/-- Outcome of symbol resolution (main.rs lines 84 to 88).  found is the
successful find; badStrtab models the unwrap panic inside the find closure
when a name offset is invalid; symbolNotFound models the panic on
unwrap_or_else when no entry matches. -/
inductive ResolveResult where
  | found (addr : Nat)
  | badStrtab
  | symbolNotFound
deriving DecidableEq

/-- Embedding of main.rs lines 84 to 90: iterate the symbol table in order,
return st_value of the first entry whose name equals the requested name.
A symbol-table entry is modelled as the pair (st_name offset, st_value). -/
def resolveSymbol (symtab : List (Nat × Nat)) (strtab : List Char)
    (name : List Char) : ResolveResult :=
  match symtab with
  | [] => ResolveResult.symbolNotFound
  | e :: rest =>
    match strtabGet strtab e.1 with
    | none => ResolveResult.badStrtab
    | some s =>
      if s = name then ResolveResult.found e.2
      else resolveSymbol rest strtab name

/-- Embedding of handle_load_cmd (main.rs lines 61 to 113).  The file named
by the path is modelled by its byte content fileData (so the metadata size
is fileData.length), and the elf crate parse of that file by the symbol
table and string table arguments.  A panic (symbol not found, bad string
table offset) is modelled as none. -/
def handleLoadCmd (fileData : List Nat) (symtab : List (Nat × Nat))
    (strtab : List Char) (symbol identifier : List Char) : Option (List Nat) :=
  match resolveSymbol symtab strtab symbol with
  | ResolveResult.found addr =>
    some (LOAD_PROG_MAGIC ++ toLe64 fileData.length ++ toLe64 addr
      ++ taskIdBytes identifier ++ fileData)
  | _ => none

/-- Embedding of handle_kill_cmd (main.rs lines 115 to 134). -/
def handleKillCmd (identifier : List Char) : Option (List Nat) :=
  some (KILL_PROG_MAGIC ++ taskIdBytes identifier)

/-- Embedding of handle_relaunch_cmd (main.rs lines 136 to 155). -/
def handleRelaunchCmd (identifier : List Char) : Option (List Nat) :=
  some (RELOAD_TASKS_MAGIC ++ taskIdBytes identifier)

/-- Embedding of handle_list_cmd (main.rs lines 157 to 163). -/
def handleListCmd : Option (List Nat) :=
  some LIST_TASKS_MAGIC

/-- The Commands enum (main.rs lines 35 to 59).  The Load variant carries
the content of the file at its path and the parsed symbol and string
tables, since the validated command is consumed exactly once. -/
inductive Commands where
  | load (fileData : List Nat) (symtab : List (Nat × Nat)) (strtab : List Char)
      (symbol : List Char) (identifier : List Char)
  | kill (identifier : List Char)
  | relaunch (identifier : List Char)
  | list
  | log
deriving DecidableEq

/-- The dispatch match of handle_command (main.rs lines 180 to 194): the
frame bytes produced for a command, none for Log and for an aborted
handler. -/
def encodeCommand : Commands → Option (List Nat)
  | Commands.load fileData symtab strtab symbol identifier =>
      handleLoadCmd fileData symtab strtab symbol identifier
  | Commands.kill identifier => handleKillCmd identifier
  | Commands.relaunch identifier => handleRelaunchCmd identifier
  | Commands.list => handleListCmd
  | Commands.log => none

/-- Observable result of one handle_command invocation: the content of
/tmp/elf.dump afterwards (none when the file is absent), the bytes handed
to the serial write loop, and whether the invocation panicked. -/
structure DispatchResult where
  dumpContent : Option (List Nat)
  serialBytes : List Nat
  panicked : Bool
deriving DecidableEq

/-- Embedding of handle_command (main.rs lines 166 to 213).  The dump file
is opened with create and truncate before the command match runs; the
expect calls on open and on write_all are modelled by the two Bool flags:
a false flag makes the invocation panic.  On the Log command, and when a
handler aborts, the function returns before the dump write and before any
serial write, leaving the dump truncated. -/
def handleCommand (cmd : Commands) (prevDump : Option (List Nat))
    (dumpOpenOk dumpWriteOk : Bool) : DispatchResult :=
  if dumpOpenOk = false then ⟨prevDump, [], true⟩
  else
    match encodeCommand cmd with
    | none => ⟨some [], [], false⟩
    | some frame =>
      if dumpWriteOk = false then ⟨some [], [], true⟩
      else ⟨some frame, frame, false⟩

/-- Outcome of the serial frame write loop: completed, or panicked at the
zero-based index of the byte whose write or flush failed. -/
inductive WriteOutcome where
  | completed
  | panicked (atByte : Nat)
deriving DecidableEq

/-- Auxiliary recursion for the write loop, carrying the index of the next
byte.  ok i tells whether the write_all and flush of byte i succeed; on a
failure the unwrap at main.rs line 207 or 208 panics. -/
def writeFrameAux : List Nat → (Nat → Bool) → Nat → WriteOutcome
  | [], _, _ => WriteOutcome.completed
  | _ :: rest, ok, i =>
    if ok i then writeFrameAux rest ok (i + 1) else WriteOutcome.panicked i

/-- Embedding of the per-byte serial write loop of handle_command
(main.rs lines 205 to 211). -/
def writeFrameLoop (frame : List Nat) (ok : Nat → Bool) : WriteOutcome :=
  writeFrameAux frame ok 0

/-- One iteration of the drain loop (main.rs lines 228 to 237) is driven by
the lock and read outcome it observes. -/
inductive DrainInput where
  | lockPoisoned
  | readOk (b : Nat)
  | readErr
deriving DecidableEq

/-- Bytes printed by one drain iteration.  A poisoned lock skips the body;
a failed read_exact is discarded with the let-else pattern, and the
zero-initialized buffer is printed anyway; no outcome stops the loop. -/
def drainStep : DrainInput → List Nat
  | DrainInput.lockPoisoned => []
  | DrainInput.readOk b => [b]
  | DrainInput.readErr => [0]

/-- The drain loop run over a finite window of iteration inputs: it
performs every iteration, whatever the outcomes. -/
def drainRun (inputs : List DrainInput) : List (List Nat) :=
  inputs.map drainStep

/-- A per-byte outcome oracle where every serial operation fails. -/
def failAll : Nat → Bool := fun _ => false

/-- A per-byte outcome oracle where every serial operation succeeds. -/
def okWrite : Nat → Bool := fun _ => true

/-- A per-byte outcome oracle failing exactly at index 1. -/
def failSecond : Nat → Bool := fun i => !(i == 1)

/-- Lock-level events on the shared serial connection. -/
inductive SerialEv where
  | lockAcquire
  | lockRelease
  | writeByte (b : Nat)
  | readAttempt
deriving DecidableEq

/-- Lock trace of the frame-writing path (main.rs lines 205 to 211): the
MutexGuard is taken once before the for loop and dropped after it, so the
whole frame sits between one acquire and one release. -/
def writerLockTrace (frame : List Nat) : List SerialEv :=
  SerialEv.lockAcquire :: (frame.map SerialEv.writeByte ++ [SerialEv.lockRelease])

/-- Lock trace of one drain-loop iteration (main.rs lines 228 to 237): the
lock is taken and dropped around each single-byte read. -/
def drainIterTrace : List SerialEv :=
  [SerialEv.lockAcquire, SerialEv.readAttempt, SerialEv.lockRelease]

/-- Number of lock acquisitions in a trace. -/
def countAcquires : List SerialEv → Nat
  | [] => 0
  | e :: rest => (if e = SerialEv.lockAcquire then 1 else 0) + countAcquires rest

/-- Modelled from the spec: re-parsing a Load frame according to the layout
of section 6 — magic, size as LE64, symbol address as LE64, an 8-byte
identifier field, then the image bytes to the end of the frame. -/
def specParseLoadFrame (frame : List Nat) :
    Option (Nat × Nat × List Nat × List Nat) :=
  if 32 ≤ frame.length ∧ frame.take 8 = LOAD_PROG_MAGIC then
    some (fromLe64 ((frame.drop 8).take 8), fromLe64 ((frame.drop 16).take 8),
      (frame.drop 24).take 8, frame.drop 32)
  else none

/-! Helper lemmas. -/

theorem utf8Bytes_ascii (c : Char) (h : c.toNat < 128) : utf8Bytes c = [c.toNat] := by
  simp [utf8Bytes, h]

theorem utf8Str_append (a b : List Char) :
    utf8Str (a ++ b) = utf8Str a ++ utf8Str b := by
  induction a with
  | nil => rfl
  | cons c cs ih => simp [utf8Str, ih]

theorem utf8Str_replicate_space (k : Nat) :
    utf8Str (List.replicate k ' ') = List.replicate k 32 := by
  induction k with
  | zero => rfl
  | succ k ih =>
    rw [List.replicate_succ, List.replicate_succ]
    show utf8Bytes ' ' ++ utf8Str (List.replicate k ' ') = 32 :: List.replicate k 32
    rw [ih]
    rfl

theorem utf8Str_length_ascii (s : List Char) (h : ∀ c ∈ s, c.toNat < 128) :
    (utf8Str s).length = s.length := by
  induction s with
  | nil => rfl
  | cons c cs ih =>
    have hc := h c (by simp)
    have hcs : ∀ x ∈ cs, x.toNat < 128 := fun x hx => h x (by simp [hx])
    simp [utf8Str, utf8Bytes_ascii c hc, ih hcs]

theorem padTakeId_length (id : List Char) : (padTakeId id).length = 8 := by
  simp [padTakeId]
  omega

theorem padTakeId_short (id : List Char) (h : id.length ≤ 8) :
    padTakeId id = id ++ List.replicate (8 - id.length) ' ' := by
  apply List.take_of_length_le
  simp
  omega

theorem padTakeId_long (id : List Char) (h : 8 < id.length) :
    padTakeId id = id.take 8 := by
  have h0 : 8 - id.length = 0 := by omega
  simp [padTakeId, h0]

theorem mem_padTakeId_ascii (id : List Char) (h : ∀ c ∈ id, c.toNat < 128) :
    ∀ c ∈ padTakeId id, c.toNat < 128 := by
  intro c hc
  have hc2 : c ∈ id ++ List.replicate (8 - id.length) ' ' :=
    List.take_subset _ _ hc
  rcases List.mem_append.1 hc2 with h1 | h2
  · exact h c h1
  · rw [List.eq_of_mem_replicate h2]
    decide

theorem taskIdBytes_length_ascii (id : List Char) (h : ∀ c ∈ id, c.toNat < 128) :
    (taskIdBytes id).length = 8 := by
  rw [taskIdBytes, utf8Str_length_ascii _ (mem_padTakeId_ascii id h), padTakeId_length]

theorem leBytes_length (k n : Nat) : (leBytes k n).length = k := by
  induction k generalizing n with
  | zero => rfl
  | succ k ih => simp [leBytes, ih]

theorem toLe64_length (n : Nat) : (toLe64 n).length = 8 := leBytes_length 8 n

theorem fromLe64_leBytes (k n : Nat) : fromLe64 (leBytes k n) = n % 256 ^ k := by
  induction k generalizing n with
  | zero => simp [leBytes, fromLe64, Nat.mod_one]
  | succ k ih =>
    rw [leBytes, fromLe64, ih, pow_succ', Nat.mod_mul]

theorem fromLe64_toLe64 (n : Nat) (h : n < 2 ^ 64) : fromLe64 (toLe64 n) = n := by
  rw [toLe64, fromLe64_leBytes]
  apply Nat.mod_eq_of_lt
  calc n < 2 ^ 64 := h
    _ = 256 ^ 8 := by norm_num

theorem take_len_append {α : Type} (a b : List α) : (a ++ b).take a.length = a := by
  induction a with
  | nil => rfl
  | cons x xs ih => simp [ih]

theorem drop_len_append {α : Type} (a b : List α) : (a ++ b).drop a.length = b := by
  induction a with
  | nil => rfl
  | cons x xs ih => simp [ih]

theorem take_eq_append {α : Type} (a b : List α) (n : Nat) (h : a.length = n) :
    (a ++ b).take n = a := h ▸ take_len_append a b

theorem drop_eq_append {α : Type} (a b : List α) (n : Nat) (h : a.length = n) :
    (a ++ b).drop n = b := h ▸ drop_len_append a b

theorem drop_add_append {α : Type} (a b : List α) (n k : Nat) (h : a.length = n) :
    (a ++ b).drop (n + k) = b.drop k := by
  subst h
  induction a with
  | nil => simp
  | cons x xs ih =>
    have hx : xs.length + 1 + k = (xs.length + k) + 1 := by omega
    rw [List.cons_append, List.length_cons, hx, List.drop_succ_cons]
    exact ih

/-- Parsing the assembled Load frame recovers its four fields. -/
theorem specParse_assembled (s v : Nat) (t img : List Nat)
    (hs : s < 2 ^ 64) (hv : v < 2 ^ 64) (ht : t.length = 8) :
    specParseLoadFrame (LOAD_PROG_MAGIC ++ toLe64 s ++ toLe64 v ++ t ++ img)
      = some (s, v, t, img) := by
  have hm : LOAD_PROG_MAGIC.length = 8 := by decide
  have h8 : (LOAD_PROG_MAGIC ++ (toLe64 s ++ (toLe64 v ++ (t ++ img)))).drop 8
      = toLe64 s ++ (toLe64 v ++ (t ++ img)) :=
    drop_eq_append _ _ 8 hm
  have h16 : (LOAD_PROG_MAGIC ++ (toLe64 s ++ (toLe64 v ++ (t ++ img)))).drop 16
      = toLe64 v ++ (t ++ img) := by
    have hd := drop_add_append LOAD_PROG_MAGIC (toLe64 s ++ (toLe64 v ++ (t ++ img))) 8 8 hm
    rw [drop_eq_append (toLe64 s) _ 8 (toLe64_length s)] at hd
    exact hd
  have h24 : (LOAD_PROG_MAGIC ++ (toLe64 s ++ (toLe64 v ++ (t ++ img)))).drop 24
      = t ++ img := by
    have hd := drop_add_append LOAD_PROG_MAGIC (toLe64 s ++ (toLe64 v ++ (t ++ img))) 8 16 hm
    rw [drop_add_append (toLe64 s) _ 8 8 (toLe64_length s)] at hd
    rw [drop_eq_append (toLe64 v) _ 8 (toLe64_length v)] at hd
    exact hd
  have h32 : (LOAD_PROG_MAGIC ++ (toLe64 s ++ (toLe64 v ++ (t ++ img)))).drop 32
      = img := by
    have hd := drop_add_append LOAD_PROG_MAGIC (toLe64 s ++ (toLe64 v ++ (t ++ img))) 8 24 hm
    rw [drop_add_append (toLe64 s) _ 8 16 (toLe64_length s)] at hd
    rw [drop_add_append (toLe64 v) _ 8 8 (toLe64_length v)] at hd
    rw [drop_eq_append t img 8 ht] at hd
    exact hd
  have hlen : 32 ≤ (LOAD_PROG_MAGIC ++ (toLe64 s ++ (toLe64 v ++ (t ++ img)))).length := by
    simp [hm, toLe64_length, ht]
    omega
  have htake : (LOAD_PROG_MAGIC ++ (toLe64 s ++ (toLe64 v ++ (t ++ img)))).take 8
      = LOAD_PROG_MAGIC := take_eq_append _ _ 8 hm
  show specParseLoadFrame (LOAD_PROG_MAGIC ++ (toLe64 s ++ (toLe64 v ++ (t ++ img))))
      = some (s, v, t, img)
  rw [specParseLoadFrame, if_pos ⟨hlen, htake⟩, h8, h16, h24, h32]
  rw [take_eq_append _ _ 8 (toLe64_length s), take_eq_append _ _ 8 (toLe64_length v)]
  rw [take_eq_append t img 8 ht, fromLe64_toLe64 s hs, fromLe64_toLe64 v hv]

/-- When every name offset in the table resolves, the find of main.rs
line 87 returns the first entry whose name matches. -/
theorem resolveSymbol_found (symtab : List (Nat × Nat)) (strtab : List Char)
    (name : List Char) (e : Nat × Nat)
    (hok : ∀ x ∈ symtab, (strtabGet strtab x.1).isSome)
    (hfind : symtab.find? (fun x => strtabGet strtab x.1 == some name) = some e) :
    resolveSymbol symtab strtab name = ResolveResult.found e.2 := by
  induction symtab with
  | nil => simp [List.find?] at hfind
  | cons a rest ih =>
    rw [List.find?_cons] at hfind
    cases hp : (strtabGet strtab a.1 == some name) with
    | true =>
      rw [hp] at hfind
      have hae : a = e := by simpa using hfind
      subst hae
      have heq : strtabGet strtab a.1 = some name := eq_of_beq hp
      simp [resolveSymbol, heq]
    | false =>
      rw [hp] at hfind
      have ha := hok a (by simp)
      rcases Option.isSome_iff_exists.1 ha with ⟨s, hs⟩
      have hsne : s ≠ name := by
        intro hcontra
        subst hcontra
        simp [hs] at hp
      simp only [resolveSymbol, hs]
      rw [if_neg hsne]
      exact ih (fun x hx => hok x (by simp [hx])) hfind

/-- When every name offset resolves and no entry matches, resolution fails
with the symbol-not-found panic of main.rs line 88. -/
theorem resolveSymbol_notFound (symtab : List (Nat × Nat)) (strtab : List Char)
    (name : List Char)
    (hok : ∀ x ∈ symtab, (strtabGet strtab x.1).isSome)
    (hfind : symtab.find? (fun x => strtabGet strtab x.1 == some name) = none) :
    resolveSymbol symtab strtab name = ResolveResult.symbolNotFound := by
  induction symtab with
  | nil => rfl
  | cons a rest ih =>
    rw [List.find?_cons] at hfind
    cases hp : (strtabGet strtab a.1 == some name) with
    | true => rw [hp] at hfind; simp at hfind
    | false =>
      rw [hp] at hfind
      have ha := hok a (by simp)
      rcases Option.isSome_iff_exists.1 ha with ⟨s, hs⟩
      have hsne : s ≠ name := by
        intro hcontra
        subst hcontra
        simp [hs] at hp
      simp only [resolveSymbol, hs]
      rw [if_neg hsne]
      exact ih (fun x hx => hok x (by simp [hx])) hfind

theorem writeFrameAux_completed (frame : List Nat) (ok : Nat → Bool) (i0 : Nat)
    (h : ∀ j, j < frame.length → ok (i0 + j) = true) :
    writeFrameAux frame ok i0 = WriteOutcome.completed := by
  induction frame generalizing i0 with
  | nil => rfl
  | cons b rest ih =>
    have h0 : ok i0 = true := by simpa using h 0 (by simp)
    simp only [writeFrameAux, h0, if_true]
    exact ih (i0 + 1) (fun j hj => by
      have hh := h (j + 1) (by simp only [List.length_cons]; omega)
      have hx : i0 + 1 + j = i0 + (j + 1) := by omega
      rw [hx]
      exact hh)

theorem writeFrameAux_panics (frame : List Nat) (ok : Nat → Bool) (i0 i : Nat)
    (hlt : i < i0 + frame.length) (hge : i0 ≤ i) (hfail : ok i = false)
    (hpre : ∀ j, i0 ≤ j → j < i → ok j = true) :
    writeFrameAux frame ok i0 = WriteOutcome.panicked i := by
  induction frame generalizing i0 with
  | nil =>
    exfalso
    simp only [List.length_nil, Nat.add_zero] at hlt
    omega
  | cons b rest ih =>
    by_cases hi : i = i0
    · subst hi
      simp [writeFrameAux, hfail]
    · have hok0 : ok i0 = true := hpre i0 le_rfl (by omega)
      simp only [writeFrameAux, hok0, if_true]
      exact ih (i0 + 1) (by simp only [List.length_cons] at hlt; omega) (by omega)
        (fun j hj1 hj2 => hpre j (by omega) hj2)

theorem countAcquires_body (bs : List Nat) :
    countAcquires (bs.map SerialEv.writeByte ++ [SerialEv.lockRelease]) = 0 := by
  induction bs with
  | nil => rfl
  | cons b rest ih => simpa [countAcquires] using ih

/-! Claim theorems. -/

/-- Claim C1, counterexample: the claim states that the encoded TaskId
field is exactly 8 bytes regardless of the input encoding.  For the
one-character identifier é (two UTF-8 bytes) the field is 9 bytes, and the
Kill frame is 17 bytes instead of the 16 the claim implies. -/
theorem c1_counterexample :
    (taskIdBytes ['é']).length = 9
    ∧ (taskIdBytes ['é']).length ≠ 8
    ∧ ((handleKillCmd ['é']).getD []).length = 17 := by decide

/-- Claim C1, amended: for identifiers whose characters are all ASCII, the
encoded TaskId field used by the Kill, Relaunch and Load encoders is
exactly 8 bytes; identifiers of length at most 8 are right-padded with
ASCII spaces with content preserved, and longer identifiers are truncated
to their first 8 characters.  For non-ASCII identifiers the field holds
8 characters, whose UTF-8 byte length can exceed 8. -/
theorem c1_amended_field (id : List Char) (h : ∀ c ∈ id, c.toNat < 128) :
    (taskIdBytes id).length = 8
    ∧ (id.length ≤ 8 →
        taskIdBytes id = utf8Str id ++ List.replicate (8 - id.length) 32)
    ∧ (8 < id.length → taskIdBytes id = utf8Str (id.take 8))
    ∧ handleKillCmd id = some (KILL_PROG_MAGIC ++ taskIdBytes id)
    ∧ handleRelaunchCmd id = some (RELOAD_TASKS_MAGIC ++ taskIdBytes id) := by
  refine ⟨taskIdBytes_length_ascii id h, ?_, ?_, rfl, rfl⟩
  · intro hle
    rw [taskIdBytes, padTakeId_short id hle, utf8Str_append, utf8Str_replicate_space]
  · intro hgt
    rw [taskIdBytes, padTakeId_long id hgt]

/-- Claim C1, witness: the amended theorem evaluated at the identifier
abc. -/
theorem c1_witness :
    (taskIdBytes ['a', 'b', 'c']).length = 8
    ∧ (['a', 'b', 'c'].length ≤ 8 →
        taskIdBytes ['a', 'b', 'c'] =
          utf8Str ['a', 'b', 'c'] ++ List.replicate (8 - ['a', 'b', 'c'].length) 32)
    ∧ (8 < ['a', 'b', 'c'].length →
        taskIdBytes ['a', 'b', 'c'] = utf8Str (['a', 'b', 'c'].take 8))
    ∧ handleKillCmd ['a', 'b', 'c'] = some (KILL_PROG_MAGIC ++ taskIdBytes ['a', 'b', 'c'])
    ∧ handleRelaunchCmd ['a', 'b', 'c'] =
        some (RELOAD_TASKS_MAGIC ++ taskIdBytes ['a', 'b', 'c']) :=
  c1_amended_field ['a', 'b', 'c'] (by decide)

/-- Claim C2, counterexample: the List frame produced by the code is not
the magic LISTTASK named by the claim. -/
theorem c2_counterexample :
    handleListCmd ≠ some (utf8Str ['L', 'I', 'S', 'T', 'T', 'A', 'S', 'K']) := by decide

/-- Claim C2, amended: encoding the List command produces exactly the
8-byte ASCII magic LISTPROG with no payload, so the whole frame has
length 8. -/
theorem c2_amended :
    handleListCmd = some LIST_TASKS_MAGIC
    ∧ LIST_TASKS_MAGIC = [76, 73, 83, 84, 80, 82, 79, 71]
    ∧ (handleListCmd.getD []).length = 8 := by decide

/-- Claim C3, counterexample: for the Load command with a one-byte image
and the one-character identifier α the frame is 34 bytes, not the
8 + 8 + 8 + 8 + 1 = 33 bytes the claimed layout with an 8-byte identifier
field implies. -/
theorem c3_counterexample :
    ((handleLoadCmd [7] [(0, 1)] ['m', Char.ofNat 0] ['m'] ['α']).getD []).length = 34
    ∧ (34 : Nat) ≠ 8 + 8 + 8 + 8 + 1 := by decide

/-- Claim C3, amended: every successfully encoded Load frame is, in order,
the magic LOADPROG, the image byte length as LE64, the resolved symbol
address as LE64, the padded and truncated identifier field, then the raw
image bytes verbatim; the identifier field is exactly 8 bytes when the
identifier consists of ASCII characters. -/
theorem c3_amended (img : List Nat) (symtab : List (Nat × Nat))
    (strtab symbol id : List Char) (addr : Nat)
    (hres : resolveSymbol symtab strtab symbol = ResolveResult.found addr) :
    handleLoadCmd img symtab strtab symbol id =
      some (LOAD_PROG_MAGIC ++ toLe64 img.length ++ toLe64 addr
        ++ taskIdBytes id ++ img)
    ∧ ((∀ c ∈ id, c.toNat < 128) → (taskIdBytes id).length = 8)
    ∧ (toLe64 img.length).length = 8
    ∧ (toLe64 addr).length = 8
    ∧ LOAD_PROG_MAGIC.length = 8 := by
  refine ⟨?_, fun h => taskIdBytes_length_ascii id h,
    toLe64_length img.length, toLe64_length addr, by decide⟩
  simp [handleLoadCmd, hres]

/-- Claim C3, witness: the amended theorem evaluated on a concrete
one-byte image whose symbol table maps the name m to address 1. -/
theorem c3_witness :
    handleLoadCmd [7] [(0, 1)] ['m', Char.ofNat 0] ['m'] ['a'] =
      some (LOAD_PROG_MAGIC ++ toLe64 ([7] : List Nat).length ++ toLe64 1
        ++ taskIdBytes ['a'] ++ [7])
    ∧ ((∀ c ∈ ['a'], c.toNat < 128) → (taskIdBytes ['a']).length = 8)
    ∧ (toLe64 ([7] : List Nat).length).length = 8
    ∧ (toLe64 1).length = 8
    ∧ LOAD_PROG_MAGIC.length = 8 :=
  c3_amended [7] [(0, 1)] ['m', Char.ofNat 0] ['m'] ['a'] 1 (by decide)

/-- Claim C4, confirmed: with a well-formed string table, resolution
returns the st_value of the first symbol-table entry whose name equals the
requested name byte for byte, and when no entry matches it fails with the
fatal symbol-not-found condition and the Load handler produces no frame. -/
theorem c4_resolution (symtab : List (Nat × Nat)) (strtab : List Char)
    (name : List Char)
    (hok : ∀ x ∈ symtab, (strtabGet strtab x.1).isSome) :
    (∀ e, symtab.find? (fun x => strtabGet strtab x.1 == some name) = some e →
      resolveSymbol symtab strtab name = ResolveResult.found e.2)
    ∧ (symtab.find? (fun x => strtabGet strtab x.1 == some name) = none →
      resolveSymbol symtab strtab name = ResolveResult.symbolNotFound
      ∧ ∀ img id, handleLoadCmd img symtab strtab name id = none) := by
  refine ⟨fun e he => resolveSymbol_found symtab strtab name e hok he, fun hn => ?_⟩
  have hr := resolveSymbol_notFound symtab strtab name hok hn
  exact ⟨hr, fun img id => by simp [handleLoadCmd, hr]⟩

/-- Claim C4, witness: a two-entry table where the name b resolves to the
address 9 of its entry, and the absent name z fails. -/
theorem c4_witness :
    resolveSymbol [(0, 7), (2, 9)] ['a', Char.ofNat 0, 'b', Char.ofNat 0] ['b']
      = ResolveResult.found 9
    ∧ resolveSymbol [(0, 7), (2, 9)] ['a', Char.ofNat 0, 'b', Char.ofNat 0] ['z']
      = ResolveResult.symbolNotFound := by
  constructor
  · exact (c4_resolution [(0, 7), (2, 9)] ['a', Char.ofNat 0, 'b', Char.ofNat 0]
      ['b'] (by decide)).1 (2, 9) (by decide)
  · exact ((c4_resolution [(0, 7), (2, 9)] ['a', Char.ofNat 0, 'b', Char.ofNat 0]
      ['z'] (by decide)).2 (by decide)).1

/-- Claim C5, counterexample: the claim states that write errors on the
open connection are swallowed and the write loop continues; in the code
the unwrap on write_all panics, so a failed single-byte write terminates
the process instead of continuing.  A failed read in the drain loop, by
contrast, is swallowed. -/
theorem c5_counterexample :
    writeFrameLoop [72] failAll = WriteOutcome.panicked 0
    ∧ WriteOutcome.panicked 0 ≠ WriteOutcome.completed
    ∧ (drainRun [DrainInput.readErr]).length = 1 := by decide

/-- Claim C5, amended: after the connection is open, a read error in the
drain loop is transient — the iteration is abandoned silently and the loop
performs every following iteration — but a write or flush error in the
frame write loop panics at the failing byte, terminating the process. -/
theorem c5_amended :
    (∀ inputs : List DrainInput, (drainRun inputs).length = inputs.length)
    ∧ (∀ (frame : List Nat) (ok : Nat → Bool),
        (∀ j, j < frame.length → ok j = true) →
        writeFrameLoop frame ok = WriteOutcome.completed)
    ∧ (∀ (frame : List Nat) (ok : Nat → Bool) (i : Nat),
        i < frame.length → ok i = false → (∀ j, j < i → ok j = true) →
        writeFrameLoop frame ok = WriteOutcome.panicked i) := by
  refine ⟨fun inputs => by simp [drainRun], ?_, ?_⟩
  · intro frame ok h
    exact writeFrameAux_completed frame ok 0 (fun j hj => by simpa using h j hj)
  · intro frame ok i hi hfail hpre
    exact writeFrameAux_panics frame ok 0 i (by omega) (Nat.zero_le i) hfail
      (fun j _ hj => hpre j hj)

/-- Claim C5, witness: a drain window with a failed read still runs all
three iterations; a two-byte frame completes when both writes succeed and
panics at index 1 when the second write fails. -/
theorem c5_witness :
    (drainRun [DrainInput.readErr, DrainInput.readOk 65, DrainInput.lockPoisoned]).length = 3
    ∧ writeFrameLoop [10, 20] okWrite = WriteOutcome.completed
    ∧ writeFrameLoop [10, 20] failSecond = WriteOutcome.panicked 1 :=
  ⟨c5_amended.1 [DrainInput.readErr, DrainInput.readOk 65, DrainInput.lockPoisoned],
    c5_amended.2.1 [10, 20] okWrite (by decide),
    c5_amended.2.2 [10, 20] failSecond 1 (by decide) (by decide) (by decide)⟩

/-- Claim C6, counterexample: the claim states that a failure to create or
write the dump file is not fatal and does not prevent delivery; in the
code both expect calls panic, so on a List command a failed dump write (or
a failed dump open) panics and no byte reaches the transport write path. -/
theorem c6_counterexample :
    (handleCommand Commands.list none true false).panicked = true
    ∧ (handleCommand Commands.list none true false).serialBytes = []
    ∧ (handleCommand Commands.list none false true).panicked = true
    ∧ (handleCommand Commands.list none false true).serialBytes = [] := by decide

/-- Claim C6, amended: persisting the diagnostic copy is not
fire-and-forget: a failure to create or to write the dump file panics the
process and the frame is never handed to the transport write path; only
when both dump operations succeed are the frame bytes handed over. -/
theorem c6_amended (cmd : Commands) (prev : Option (List Nat)) (w : Bool) :
    ((handleCommand cmd prev false w).panicked = true
      ∧ (handleCommand cmd prev false w).serialBytes = [])
    ∧ (∀ frame, encodeCommand cmd = some frame →
        (handleCommand cmd prev true false).panicked = true
        ∧ (handleCommand cmd prev true false).serialBytes = [])
    ∧ (∀ frame, encodeCommand cmd = some frame →
        (handleCommand cmd prev true true).panicked = false
        ∧ (handleCommand cmd prev true true).serialBytes = frame) := by
  refine ⟨⟨rfl, rfl⟩, ?_, ?_⟩
  · intro frame hf
    simp [handleCommand, hf]
  · intro frame hf
    simp [handleCommand, hf]

/-- Claim C6, witness: the amended theorem evaluated on the List command. -/
theorem c6_witness :
    ((handleCommand Commands.list none false true).panicked = true
      ∧ (handleCommand Commands.list none false true).serialBytes = [])
    ∧ ((handleCommand Commands.list none true false).panicked = true
      ∧ (handleCommand Commands.list none true false).serialBytes = [])
    ∧ ((handleCommand Commands.list none true true).panicked = false
      ∧ (handleCommand Commands.list none true true).serialBytes = LIST_TASKS_MAGIC) := by
  have h := c6_amended Commands.list none true
  exact ⟨h.1, h.2.1 LIST_TASKS_MAGIC rfl, h.2.2 LIST_TASKS_MAGIC rfl⟩

/-- Claim C7, counterexample: the claim states that the frame-writing
activity takes the lock per single-byte operation; for a two-byte frame
the writer trace holds exactly one acquisition for its two bytes, with no
release between them, so the drain cannot acquire the lock between two
bytes of a frame. -/
theorem c7_counterexample :
    writerLockTrace [1, 2] =
      [SerialEv.lockAcquire, SerialEv.writeByte 1, SerialEv.writeByte 2,
        SerialEv.lockRelease]
    ∧ countAcquires (writerLockTrace [1, 2]) = 1
    ∧ (1 : Nat) ≠ ([1, 2] : List Nat).length := by decide

/-- Claim C7, amended: the drain activity acquires the lock once per
single-byte read, but the frame-writing activity acquires the lock once
and holds it across the entire frame: its trace is one acquisition, then
all byte writes, then one release, so no drain read can interleave between
two bytes of a frame. -/
theorem c7_amended (frame : List Nat) :
    writerLockTrace frame =
      SerialEv.lockAcquire :: (frame.map SerialEv.writeByte ++ [SerialEv.lockRelease])
    ∧ countAcquires (writerLockTrace frame) = 1
    ∧ ((writerLockTrace frame).drop 1).dropLast = frame.map SerialEv.writeByte
    ∧ drainIterTrace = [SerialEv.lockAcquire, SerialEv.readAttempt, SerialEv.lockRelease]
    ∧ countAcquires drainIterTrace = 1 := by
  refine ⟨rfl, ?_, ?_, rfl, rfl⟩
  · simp [writerLockTrace, countAcquires, countAcquires_body]
  · simp [writerLockTrace, List.dropLast_concat]

/-- Claim C8, counterexample: with the non-ASCII identifier é the
identifier field of the Load frame is 9 bytes, so re-parsing the frame by
the fixed layout hands back an image with one stray byte in front: the
original image bytes are not recovered and the size field 3 differs from
the length 4 of the re-parsed trailing bytes. -/
theorem c8_counterexample :
    specParseLoadFrame
        ((handleLoadCmd [1, 2, 3] [(0, 5)] ['f', Char.ofNat 0] ['f'] ['é']).getD [])
      = some (3, 5, [195, 169, 32, 32, 32, 32, 32, 32], [32, 1, 2, 3])
    ∧ ([32, 1, 2, 3] : List Nat) ≠ [1, 2, 3]
    ∧ (3 : Nat) ≠ ([32, 1, 2, 3] : List Nat).length := by decide

/-- Claim C8, amended: for Load commands whose identifier consists of
ASCII characters (and whose image length and symbol address fit in 64
bits), encoding and then re-parsing by the Load layout recovers the image
size, the symbol address, the post-padding identifier field and the image
bytes byte for byte, and the size field equals the byte length of the
carried image. -/
theorem c8_roundtrip (img : List Nat) (symtab : List (Nat × Nat))
    (strtab symbol id : List Char) (addr : Nat)
    (hres : resolveSymbol symtab strtab symbol = ResolveResult.found addr)
    (haddr : addr < 2 ^ 64) (hlen : img.length < 2 ^ 64)
    (hascii : ∀ c ∈ id, c.toNat < 128) :
    ∃ frame, handleLoadCmd img symtab strtab symbol id = some frame
      ∧ specParseLoadFrame frame = some (img.length, addr, taskIdBytes id, img) := by
  refine ⟨LOAD_PROG_MAGIC ++ toLe64 img.length ++ toLe64 addr ++ taskIdBytes id ++ img,
    ?_, ?_⟩
  · simp [handleLoadCmd, hres]
  · exact specParse_assembled img.length addr (taskIdBytes id) img hlen haddr
      (taskIdBytes_length_ascii id hascii)

/-- Claim C8, witness: the round trip evaluated on a one-byte image whose
symbol table maps the name g to address 4, with identifier t. -/
theorem c8_witness :
    ∃ frame, handleLoadCmd [9] [(0, 4)] ['g', Char.ofNat 0] ['g'] ['t'] = some frame
      ∧ specParseLoadFrame frame
        = some (([9] : List Nat).length, 4, taskIdBytes ['t'], [9]) :=
  c8_roundtrip [9] [(0, 4)] ['g', Char.ofNat 0] ['g'] ['t'] 4 (by decide)
    (by norm_num) (by norm_num) (by decide)

/-- Claim C9, confirmed: the frame encoder is a pure total function of the
validated Command value, so two encodings of equal commands are identical
byte sequences, and each non-Load frame is fully determined by the command
fields with no other input. -/
theorem c9_deterministic (c₁ c₂ : Commands) (h : c₁ = c₂) :
    encodeCommand c₁ = encodeCommand c₂
    ∧ (∀ id, encodeCommand (Commands.kill id) = some (KILL_PROG_MAGIC ++ taskIdBytes id))
    ∧ (∀ id, encodeCommand (Commands.relaunch id)
        = some (RELOAD_TASKS_MAGIC ++ taskIdBytes id))
    ∧ encodeCommand Commands.list = some LIST_TASKS_MAGIC
    ∧ encodeCommand Commands.log = none := by
  subst h
  exact ⟨rfl, fun _ => rfl, fun _ => rfl, rfl, rfl⟩

/-- Claim C9, witness: determinism evaluated at a concrete Kill command. -/
theorem c9_witness :
    encodeCommand (Commands.kill ['x']) = encodeCommand (Commands.kill ['x'])
    ∧ (∀ id, encodeCommand (Commands.kill id) = some (KILL_PROG_MAGIC ++ taskIdBytes id))
    ∧ (∀ id, encodeCommand (Commands.relaunch id)
        = some (RELOAD_TASKS_MAGIC ++ taskIdBytes id))
    ∧ encodeCommand Commands.list = some LIST_TASKS_MAGIC
    ∧ encodeCommand Commands.log = none :=
  c9_deterministic (Commands.kill ['x']) (Commands.kill ['x']) rfl

/-- Claim C10, confirmed: on every dispatch the dump file is opened with
create and truncate before command handling, so after a Log command —
which constructs no frame and writes nothing to the transport — and after
any command whose encoding aborts, the dump file exists and is empty,
whatever its previous content was: the previously sent frame bytes are not
retained. -/
theorem c10_dump_truncated (prev : Option (List Nat)) (w : Bool) :
    (handleCommand Commands.log prev true w).dumpContent = some []
    ∧ (handleCommand Commands.log prev true w).serialBytes = []
    ∧ (handleCommand Commands.log prev true w).panicked = false
    ∧ (∀ cmd, encodeCommand cmd = none →
        (handleCommand cmd prev true w).dumpContent = some []
        ∧ (handleCommand cmd prev true w).serialBytes = []) := by
  refine ⟨rfl, rfl, rfl, ?_⟩
  intro cmd hc
  constructor <;> simp [handleCommand, hc]

/-- Claim C10, witness: a Log dispatch over a dump file previously holding
three frame bytes leaves it existing and empty, with nothing sent. -/
theorem c10_witness :
    (handleCommand Commands.log (some [1, 2, 3]) true true).dumpContent = some []
    ∧ (handleCommand Commands.log (some [1, 2, 3]) true true).serialBytes = []
    ∧ (handleCommand Commands.log (some [1, 2, 3]) true true).panicked = false
    ∧ ((handleCommand Commands.log (some [1, 2, 3]) true true).dumpContent = some []
      ∧ (handleCommand Commands.log (some [1, 2, 3]) true true).serialBytes = []) := by
  have h := c10_dump_truncated (some [1, 2, 3]) true
  exact ⟨h.1, h.2.1, h.2.2.1, h.2.2.2 Commands.log rfl⟩

end Picosh
